import Mathlib

/-!
Verification of the `ipproto` Go package (src/protocols.go): a shallow
embedding of its registry data model, CSV-row parsing pipeline, lazy
initialization state machine, and query API, together with theorems that
settle the specification claims.

Modelling conventions:
  * Go strings are modelled as `List Char` (`Str`); `strings.TrimSpace`,
    `strings.ToUpper`, `strings.ToLower`, `strings.Fields` are modelled over
    ASCII via `Char.isWhitespace` / `Char.toUpper` / `Char.toLower`
    (the datasets involved are ASCII; Go's Unicode handling coincides there).
  * Go's `encoding/csv` reader (standard library, external to this
    repository) is modelled abstractly by its observable output `Source`:
    either a read error (malformed quoting etc.) or a list of records, with
    `#`-comment lines already removed by the reader.  An empty byte source
    yields the empty record list.
  * Go maps are modelled as association lists where a write conses the new
    binding in front, so `lookupKV` (first match) sees the most recent write,
    matching Go map overwrite semantics; `_, exists := m[k]` is
    `(lookupKV m k).isSome`.
  * `strconv.Atoi` is modelled by `atoi?` (optional sign then decimal
    digits); 64-bit overflow is not modelled, as no claim involves it.
  * Map entries store `Entry` values.  The Go code stores `*Entry` pointers
    into the entries slice, but an appended `Entry` is never mutated
    afterwards, so the pointed-to value at query time equals the value at
    insertion time.
  * `sync.Once`/`sync.RWMutex` lifecycle state is modelled by the explicit
    fields `onceDone` / `loadErr` of `GlobalState`; each exported operation
    is a function from (its arguments and) a `GlobalState` to a result
    paired with the successor `GlobalState`, which is the sequential
    behaviour the locks enforce.
-/

namespace IpProto

/-- Go strings, modelled as lists of characters. -/
abbrev Str := List Char

/-- Models `unicode.IsSpace` over the ASCII whitespace characters. -/
def isSpaceChar (c : Char) : Bool := c.isWhitespace

/-- Models `strings.TrimSpace`: drop leading and trailing whitespace. -/
def trimStr (s : Str) : Str :=
  ((s.dropWhile isSpaceChar).reverse.dropWhile isSpaceChar).reverse

/-- Models `strings.ToUpper` (ASCII). -/
def toUpperStr (s : Str) : Str := s.map Char.toUpper

/-- Models `strings.ToLower` (ASCII). -/
def toLowerStr (s : Str) : Str := s.map Char.toLower

/-- Accumulating worker for `fieldsStr`; `acc` holds the current in-progress
field, reversed. -/
def fieldsAux : Str → Str → List Str
  | [], acc => if acc = [] then [] else [acc.reverse]
  | c :: cs, acc =>
    if isSpaceChar c then
      if acc = [] then fieldsAux cs [] else acc.reverse :: fieldsAux cs []
    else fieldsAux cs (c :: acc)

/-- Models `strings.Fields`: split around runs of whitespace, no empty
fields. -/
def fieldsStr (s : Str) : List Str := fieldsAux s []

/-- Models `normalizeProtoName`: lowercase the trimmed string, then join its
whitespace-separated fields with single spaces. -/
def normalizeProtoName (s : Str) : Str :=
  List.intercalate [' '] (fieldsStr (toLowerStr (trimStr s)))

/-- Value of a nonempty all-digit string, as in the digit loop of
`strconv.Atoi` (`ch := s[i] - '0'; if ch > 9 { error }; n = n*10 + int(ch)`);
`none` if empty or a non-digit occurs. -/
def digitsVal? (cs : Str) : Option Int :=
  if cs ≠ [] ∧ cs.all Char.isDigit then
    some ((cs.foldl (fun a c => a * 10 + (c.toNat - 48)) 0 : Nat) : Int)
  else none

/-- Models `strconv.Atoi`: optional sign followed by decimal digits. -/
def atoi? (s : Str) : Option Int :=
  match s with
  | [] => none
  | c :: cs =>
    if c = '-' then (digitsVal? cs).map (fun v => -v)
    else if c = '+' then digitsVal? cs
    else digitsVal? (c :: cs)

/-- Models `parseDecimalField`: the "Decimal" column is a single number
("6"), a range ("148-252"), or non-numeric text (error, here `none`).
`strings.SplitN (s, "-", 2)` is modelled by `takeWhile` / `dropWhile.tail`
around the first hyphen (when `s` contains one, `SplitN` always yields
exactly two parts, so the Go `len(parts) != 2` branch is unreachable). -/
def parseDecimalField (s0 : Str) : Option (Int × Int) :=
  let s := trimStr s0
  match s with
  | [] => none
  | c :: _ =>
    if ¬ c.isDigit then none
    else if s.contains '-' then
      let a := trimStr (s.takeWhile (fun x => x != '-'))
      let b := trimStr ((s.dropWhile (fun x => x != '-')).tail)
      match atoi? a, atoi? b with
      | some st, some en => if en < st then none else some (st, en)
      | _, _ => none
    else
      match atoi? s with
      | some n => some (n, n)
      | none => none

/-- Models the Go `Entry` struct: one row (or range) of the registry. -/
structure Entry where
  DecimalStart : Int
  DecimalEnd   : Int
  Keyword      : Str
  Protocol     : Str
  IPv6ExtHdr   : Str
  Reference    : Str
deriving DecidableEq, Repr

/-- Association-list lookup, first match wins; models Go map indexing given
that writes cons in front. -/
def lookupKV {κ : Type} [DecidableEq κ] (m : List (κ × Entry)) (k : κ) :
    Option Entry :=
  match m with
  | [] => none
  | (k', v) :: rest => if k' = k then some v else lookupKV rest k

/-- The registry snapshot: the package-level `entries`, `byNumber`,
`byKeyword`, `byProtocolName` variables. -/
structure Snapshot where
  entries        : List Entry
  byNumber       : List (Int × Entry)
  byKeyword      : List (Str × Entry)
  byProtocolName : List (Str × Entry)
deriving DecidableEq, Repr

/-- The freshly reset snapshot (`entries = nil` and empty maps). -/
def emptySnapshot : Snapshot := ⟨[], [], [], []⟩

/-- `k` unconditional writes `byNumber[n] = ent` starting at `n`, one per
loop iteration. -/
def bindRangeAux : Nat → Int → Entry → List (Int × Entry) →
    List (Int × Entry)
  | 0, _, _, m => m
  | k + 1, n, ent, m => bindRangeAux k (n + 1) ent ((n, ent) :: m)

/-- Models `for n := start; n <= end; n++ { byNumber[n] = entryPtr }`. -/
def bindRange (m : List (Int × Entry)) (st en : Int) (ent : Entry) :
    List (Int × Entry) :=
  bindRangeAux (en - st + 1).toNat st ent m

/-- Models the padding loop `for len(row) < 5 { row = append(row, "") }`. -/
def pad5 (row : List Str) : List Str := row ++ List.replicate (5 - row.length) []

/-- The `i`-th field of the padded row, trimmed, as in the row loop of
`loadFromReaderLocked`. -/
def rowField (row : List Str) (i : Nat) : Str := trimStr ((pad5 row).getD i [])

/-- One iteration of the row loop of `loadFromReaderLocked`: skip empty rows,
pad, trim fields, skip empty or unparseable identifiers, otherwise append the
`Entry` and update the three indexes. -/
def processRow (snap : Snapshot) (row : List Str) : Snapshot :=
  if row.length = 0 then snap
  else
    let decField := rowField row 0
    let keyword := rowField row 1
    let proto := rowField row 2
    let ipv6ext := rowField row 3
    let ref := rowField row 4
    if decField = [] then snap
    else
      match parseDecimalField decField with
      | none => snap
      | some (st, en) =>
        let ent : Entry := ⟨st, en, keyword, proto, ipv6ext, ref⟩
        { entries := snap.entries ++ [ent]
          byNumber := bindRange snap.byNumber st en ent
          byKeyword :=
            if keyword ≠ [] ∧ (lookupKV snap.byKeyword (toUpperStr keyword)).isNone
            then (toUpperStr keyword, ent) :: snap.byKeyword
            else snap.byKeyword
          byProtocolName :=
            if proto ≠ [] ∧ (lookupKV snap.byProtocolName (normalizeProtoName proto)).isNone
            then (normalizeProtoName proto, ent) :: snap.byProtocolName
            else snap.byProtocolName }

/-- Observable output of the `encoding/csv` reader (`cr.ReadAll()`): a read
error (malformed quoting etc.), or the record list with comment lines already
skipped.  An empty byte source reads as `ok []`. -/
inductive Source where
  | readError : Source
  | ok : List (List Str) → Source
deriving DecidableEq

/-- Models `loadFromReaderLocked`: fail on a read error or an empty record
list, otherwise rebuild the snapshot from scratch, skipping the header row
(`startIdx = 1`).  In Go a failure returns before the snapshot variables are
reset, so the caller's snapshot is untouched on `error`. -/
def loadFromReaderLocked (src : Source) : Except Unit Snapshot :=
  match src with
  | .readError => .error ()
  | .ok records =>
    if records.length = 0 then .error ()
    else .ok ((records.drop 1).foldl processRow emptySnapshot)

/-- The package-level mutable state: the snapshot plus the lazy-load guard
(`loadOnce` consumed?) and the cached error (`loadErr != nil`). -/
structure GlobalState where
  snap     : Snapshot
  onceDone : Bool
  loadErr  : Bool
deriving DecidableEq, Repr

/-- Process start state: nil snapshot variables, fresh `sync.Once`, nil
`loadErr`. -/
def initialState : GlobalState := ⟨emptySnapshot, false, false⟩

/-- Models `ensureLoaded` given the embedded dataset `emb`: run the
`loadOnce.Do` closure if the guard is fresh, caching the resulting error.
The Go `len(embeddedCSV) == 0` early error is observationally the
`Source.ok []` case of `loadFromReaderLocked` (error cached, snapshot
untouched), so it needs no separate flag. -/
def ensureLoaded (emb : Source) (g : GlobalState) : Bool × GlobalState :=
  if g.onceDone then (g.loadErr, g)
  else
    match loadFromReaderLocked emb with
    | .error _ => (true, ⟨g.snap, true, true⟩)
    | .ok s => (false, ⟨s, true, false⟩)

/-- Models the exported `LoadFromReader`: under the write lock, reset
`loadOnce` and `loadErr`, then parse; the parse error is returned but not
stored in `loadErr`, and on error the snapshot is untouched. -/
def LoadFromReader (src : Source) (g : GlobalState) : Bool × GlobalState :=
  match loadFromReaderLocked src with
  | .error _ => (true, ⟨g.snap, false, false⟩)
  | .ok s => (false, ⟨s, false, false⟩)

/-- Models `LookupByNumber`: ensure initialization, then query the by-number
index.  (The Go `byNumber == nil` guard is observationally lookup in an
empty map.) -/
def LookupByNumber (emb : Source) (n : Int) (g : GlobalState) :
    (Option Entry × Bool) × GlobalState :=
  match ensureLoaded emb g with
  | (true, g') => ((none, false), g')
  | (false, g') =>
    match lookupKV g'.snap.byNumber n with
    | some e => ((some e, true), g')
    | none => ((none, false), g')

/-- Models `LookupDecimal`: ensure initialization, trim the name, reject the
empty name, then try the by-keyword index (uppercased) and only on a miss the
by-long-name index (normalized). -/
def LookupDecimal (emb : Source) (name : Str) (g : GlobalState) :
    (Int × Bool) × GlobalState :=
  match ensureLoaded emb g with
  | (true, g') => ((0, false), g')
  | (false, g') =>
    let nm := trimStr name
    if nm = [] then ((0, false), g')
    else
      match lookupKV g'.snap.byKeyword (toUpperStr nm) with
      | some e => ((e.DecimalStart, true), g')
      | none =>
        match lookupKV g'.snap.byProtocolName (normalizeProtoName nm) with
        | some e => ((e.DecimalStart, true), g')
        | none => ((0, false), g')

/-- Models `LookupKeyword`: the short name for `n`, not-found when the entry
is missing or its `Keyword` field is empty. -/
def LookupKeyword (emb : Source) (n : Int) (g : GlobalState) :
    (Str × Bool) × GlobalState :=
  match LookupByNumber emb n g with
  | ((some e, true), g') =>
    if e.Keyword = [] then (([], false), g') else ((e.Keyword, true), g')
  | ((_, _), g') => (([], false), g')

/-- Models `LookupProtocolName`: the long name for `n`, not-found when the
entry is missing or its `Protocol` field is empty. -/
def LookupProtocolName (emb : Source) (n : Int) (g : GlobalState) :
    (Str × Bool) × GlobalState :=
  match LookupByNumber emb n g with
  | ((some e, true), g') =>
    if e.Protocol = [] then (([], false), g') else ((e.Protocol, true), g')
  | ((_, _), g') => (([], false), g')

/-- Specification-side helper: the last entry, in insertion (file) order,
whose inclusive range contains `n`. -/
def lastOwner (es : List Entry) (n : Int) : Option Entry :=
  es.reverse.find? (fun e => decide (e.DecimalStart ≤ n) && decide (n ≤ e.DecimalEnd))

/-- The code invariant relating the by-number index to the entry list: each
covered integer is bound to the last entry (in file order) whose range
contains it. -/
def byNumberInv (snap : Snapshot) : Prop :=
  ∀ n : Int, lookupKV snap.byNumber n = lastOwner snap.entries n

/-- The code invariant: every entry in the list was built from a parsed
identifier, hence has a nonnegative start and an ordered range. -/
def entriesInv (snap : Snapshot) : Prop :=
  ∀ e ∈ snap.entries, 0 ≤ e.DecimalStart ∧ e.DecimalStart ≤ e.DecimalEnd

/-! ### Concrete datasets used to instantiate the claims -/

/-- The header row of the IANA-style dataset. -/
def hdrRow : List Str :=
  ["Decimal".toList, "Keyword".toList, "Protocol".toList,
   "IPv6 Extension Header".toList, "Reference".toList]

/-- Modelled from the spec: the embedded default dataset
(`protocol-numbers.csv`) ships with the package but is not part of the
source files; the spec fixes its literal ICMP and TCP rows
(`1,ICMP,Internet Control Message,,[RFC792]` and
`6,TCP,Transmission Control,,[RFC9293]`), which serve as a minimal default
here. -/
def defaultSource : Source :=
  .ok [hdrRow,
       ["1".toList, "ICMP".toList, "Internet Control Message".toList,
        [], "[RFC792]".toList],
       ["6".toList, "TCP".toList, "Transmission Control".toList,
        [], "[RFC9293]".toList]]

/-- The ICMP entry produced by parsing `defaultSource`. -/
def entryICMP : Entry :=
  ⟨1, 1, "ICMP".toList, "Internet Control Message".toList, [], "[RFC792]".toList⟩

/-- The snapshot obtained by parsing `defaultSource`. -/
def snapDefault : Snapshot :=
  (loadFromReaderLocked defaultSource).toOption.getD emptySnapshot

/-- An override dataset whose only keyword is `FOO` (absent from the
default dataset, which in turn has keywords absent from this one). -/
def newSource : Source :=
  .ok [hdrRow, ["17".toList, "FOO".toList, "Foo Protocol".toList, [], []]]

/-- The global state right after a successful override with `newSource`. -/
def gAfterOverride : GlobalState := (LoadFromReader newSource initialState).2

/-- A dataset with two rows claiming the same integer 0. -/
def dupSource : Source :=
  .ok [hdrRow,
       ["0".toList, "A".toList, [], [], []],
       ["0".toList, "B".toList, [], [], []]]

/-- The entry of the first (earlier) row of `dupSource`. -/
def entryA : Entry := ⟨0, 0, "A".toList, [], [], []⟩

/-- The entry of the second (later) row of `dupSource`. -/
def entryB : Entry := ⟨0, 0, "B".toList, [], [], []⟩

/-- A short row exercising padding: a range identifier and a keyword only. -/
def rowW : List Str := ["10-12".toList, "X".toList]

/-- A dataset whose single data row is the range row
`148-252,,Unassigned,,` (empty keyword, nonempty long name). -/
def unSource : Source :=
  .ok [hdrRow, ["148-252".toList, [], "Unassigned".toList, [], []]]

/-- The entry produced by the `148-252,,Unassigned,,` row. -/
def entryUn : Entry := ⟨148, 252, [], "Unassigned".toList, [], []⟩

/-- The snapshot obtained by parsing `unSource`. -/
def snapUn : Snapshot :=
  (loadFromReaderLocked unSource).toOption.getD emptySnapshot

/-- A loaded global state holding `snapUn`. -/
def gUn : GlobalState := ⟨snapUn, true, false⟩

/-- A loaded global state holding `snapDefault`. -/
def gDefault : GlobalState := ⟨snapDefault, true, false⟩

/-- A dataset where one row's keyword (`CBT`) is another row's long name, so
both indexes could match the same input string. -/
def prioSource : Source :=
  .ok [hdrRow,
       ["7".toList, "CBT".toList, "Something".toList, [], []],
       ["8".toList, "XX".toList, "CBT".toList, [], []]]

/-- The first entry of `prioSource` (keyword `CBT`). -/
def entry7 : Entry := ⟨7, 7, "CBT".toList, "Something".toList, [], []⟩

/-- The second entry of `prioSource` (long name `CBT`). -/
def entry8 : Entry := ⟨8, 8, "XX".toList, "CBT".toList, [], []⟩

/-- The snapshot obtained by parsing `prioSource`. -/
def snapPrio : Snapshot :=
  (loadFromReaderLocked prioSource).toOption.getD emptySnapshot

/-- A loaded global state holding `snapPrio`. -/
def gPrio : GlobalState := ⟨snapPrio, true, false⟩

/-! ### Lemmas about the by-number index -/

theorem lookupKV_bindRangeAux (k : Nat) (st : Int) (ent : Entry)
    (m : List (Int × Entry)) (n : Int) :
    lookupKV (bindRangeAux k st ent m) n =
      if st ≤ n ∧ n < st + k then some ent else lookupKV m n := by
  induction k generalizing st m with
  | zero =>
    rw [bindRangeAux, if_neg]
    omega
  | succ k ih =>
    rw [bindRangeAux, ih]
    simp only [lookupKV]
    split_ifs <;> first | rfl | omega

theorem lookupKV_bindRange (m : List (Int × Entry)) (st en : Int) (ent : Entry)
    (n : Int) :
    lookupKV (bindRange m st en ent) n =
      if st ≤ n ∧ n ≤ en then some ent else lookupKV m n := by
  rw [bindRange, lookupKV_bindRangeAux]
  split_ifs <;> first | rfl | omega

theorem lastOwner_append (es : List Entry) (e : Entry) (n : Int) :
    lastOwner (es ++ [e]) n =
      if e.DecimalStart ≤ n ∧ n ≤ e.DecimalEnd then some e else lastOwner es n := by
  unfold lastOwner
  rw [List.reverse_append]
  by_cases h : e.DecimalStart ≤ n ∧ n ≤ e.DecimalEnd
  · rw [if_pos h]
    simp [List.find?, h.1, h.2]
  · rw [if_neg h]
    rcases Decidable.not_and_iff_or_not.mp h with h1 | h1 <;>
      simp [List.find?, h1]

theorem processRow_byNumberInv (snap : Snapshot) (row : List Str)
    (h : byNumberInv snap) : byNumberInv (processRow snap row) := by
  unfold processRow
  split
  · exact h
  · dsimp only
    split
    · exact h
    · split
      · exact h
      · rename_i st en heq
        intro n
        simp only [lookupKV_bindRange, lastOwner_append]
        split_ifs <;> first | rfl | exact h n

theorem foldl_byNumberInv (rows : List (List Str)) (snap : Snapshot)
    (h : byNumberInv snap) : byNumberInv (rows.foldl processRow snap) := by
  induction rows generalizing snap with
  | nil => exact h
  | cons r rs ih => exact ih _ (processRow_byNumberInv _ _ h)

theorem load_byNumberInv (src : Source) (snap : Snapshot)
    (h : loadFromReaderLocked src = .ok snap) : byNumberInv snap := by
  cases src with
  | readError => exact absurd h (by simp [loadFromReaderLocked])
  | ok records =>
    simp only [loadFromReaderLocked] at h
    by_cases hl : records.length = 0
    · rw [if_pos hl] at h
      exact absurd h (by simp)
    · rw [if_neg hl] at h
      cases h
      exact foldl_byNumberInv _ _ (fun n => rfl)

/-! ### Lemmas about identifier parsing -/

theorem digitsVal?_nonneg (cs : Str) (v : Int) (h : digitsVal? cs = some v) :
    0 ≤ v := by
  unfold digitsVal? at h
  split at h
  · cases h
    exact Int.natCast_nonneg _
  · exact absurd h (by simp)

theorem atoi?_nonneg (s : Str) (v : Int) (h : atoi? s = some v)
    (hd : ∀ c, s.head? = some c → c ≠ '-') : 0 ≤ v := by
  match s with
  | [] => exact absurd h (by simp [atoi?])
  | c :: cs =>
    have hc : c ≠ '-' := hd c rfl
    rw [atoi?, if_neg hc] at h
    by_cases hp : c = '+'
    · rw [if_pos hp] at h
      exact digitsVal?_nonneg _ _ h
    · rw [if_neg hp] at h
      exact digitsVal?_nonneg _ _ h

theorem mem_trimStr {c : Char} {s : Str} (h : c ∈ trimStr s) : c ∈ s := by
  unfold trimStr at h
  rw [List.mem_reverse] at h
  have h2 := List.dropWhile_subset isSpaceChar h
  rw [List.mem_reverse] at h2
  exact List.dropWhile_subset isSpaceChar h2

theorem trimStr_nil : trimStr [] = [] := rfl

theorem parseDecimalField_nil : parseDecimalField [] = none := rfl

theorem head_trim_takeWhile_ne (l : Str) (d : Char)
    (h : (trimStr (l.takeWhile (fun x => x != '-'))).head? = some d) : d ≠ '-' := by
  intro hdm
  subst hdm
  have hmem : '-' ∈ trimStr (l.takeWhile (fun x => x != '-')) := by
    match htr : trimStr (l.takeWhile (fun x => x != '-')) with
    | [] => rw [htr] at h; cases h
    | d' :: tl =>
      rw [htr] at h
      cases h
      exact List.mem_cons_self _ _
  have := List.mem_takeWhile_imp (mem_trimStr hmem)
  simp at this

theorem parseDecimalField_bounds (s : Str) (st en : Int)
    (h : parseDecimalField s = some (st, en)) : 0 ≤ st ∧ st ≤ en := by
  unfold parseDecimalField at h
  dsimp only at h
  split at h
  · exact absurd h (by simp)
  · rename_i t c rest heq
    split at h
    · exact absurd h (by simp)
    · rename_i hdig
      have hcd : c.isDigit = true := by simpa using hdig
      split at h
      · -- range branch
        split at h
        · rename_i ha hb
          split at h
          · exact absurd h (by simp)
          · rename_i hlt
            cases h
            refine ⟨?_, by omega⟩
            refine atoi?_nonneg _ _ ha ?_
            intro d hdhead
            exact head_trim_takeWhile_ne _ _ hdhead
        · exact absurd h (by simp)
      · -- single-number branch
        split at h
        · rename_i hn
          cases h
          refine ⟨?_, by omega⟩
          refine atoi?_nonneg _ _ hn ?_
          intro d hdhead
          rw [heq] at hdhead
          cases hdhead
          intro hdm
          rw [hdm] at hcd
          simp [Char.isDigit] at hcd
        · exact absurd h (by simp)

theorem processRow_entriesInv (snap : Snapshot) (row : List Str)
    (h : entriesInv snap) : entriesInv (processRow snap row) := by
  unfold processRow
  split
  · exact h
  · dsimp only
    split
    · exact h
    · split
      · exact h
      · rename_i st en heq
        intro e he
        rw [List.mem_append] at he
        rcases he with he | he
        · exact h e he
        · rw [List.mem_singleton] at he
          subst he
          exact parseDecimalField_bounds _ _ _ heq

theorem foldl_entriesInv (rows : List (List Str)) (snap : Snapshot)
    (h : entriesInv snap) : entriesInv (rows.foldl processRow snap) := by
  induction rows generalizing snap with
  | nil => exact h
  | cons r rs ih => exact ih _ (processRow_entriesInv _ _ h)

theorem load_entriesInv (src : Source) (snap : Snapshot)
    (h : loadFromReaderLocked src = .ok snap) : entriesInv snap := by
  cases src with
  | readError => exact absurd h (by simp [loadFromReaderLocked])
  | ok records =>
    simp only [loadFromReaderLocked] at h
    by_cases hl : records.length = 0
    · rw [if_pos hl] at h
      exact absurd h (by simp)
    · rw [if_neg hl] at h
      cases h
      exact foldl_entriesInv _ _ (fun e he => absurd he (List.not_mem_nil e))

theorem processRow_of_parse_fail (snap : Snapshot) (row : List Str)
    (h : parseDecimalField (rowField row 0) = none) :
    processRow snap row = snap := by
  unfold processRow
  split
  · rfl
  · dsimp only
    split
    · rfl
    · split
      · rfl
      · rename_i st en heq
        rw [h] at heq
        cases heq

/-! ### Lemmas about the query pipeline -/

theorem ensureLoaded_fresh (emb : Source) (snap0 snap : Snapshot)
    (h : loadFromReaderLocked emb = .ok snap) :
    ensureLoaded emb ⟨snap0, false, false⟩ = (false, ⟨snap, true, false⟩) := by
  unfold ensureLoaded
  rw [h]
  rfl

theorem ensureLoaded_loaded (emb : Source) (g : GlobalState)
    (h1 : g.onceDone = true) (h2 : g.loadErr = false) :
    ensureLoaded emb g = (false, g) := by
  unfold ensureLoaded
  rw [if_pos h1, h2]

theorem lookupByNumber_loaded (emb : Source) (g : GlobalState) (n : Int)
    (h1 : g.onceDone = true) (h2 : g.loadErr = false) :
    LookupByNumber emb n g =
      ((lookupKV g.snap.byNumber n, (lookupKV g.snap.byNumber n).isSome), g) := by
  unfold LookupByNumber
  rw [ensureLoaded_loaded emb g h1 h2]
  dsimp only
  cases lookupKV g.snap.byNumber n <;> rfl

theorem lookupDecimal_loaded (emb : Source) (g : GlobalState) (name : Str)
    (h1 : g.onceDone = true) (h2 : g.loadErr = false) :
    (LookupDecimal emb name g).1 =
      if trimStr name = [] then (0, false)
      else
        match lookupKV g.snap.byKeyword (toUpperStr (trimStr name)) with
        | some e => (e.DecimalStart, true)
        | none =>
          match lookupKV g.snap.byProtocolName (normalizeProtoName (trimStr name)) with
          | some e => (e.DecimalStart, true)
          | none => (0, false) := by
  unfold LookupDecimal
  rw [ensureLoaded_loaded emb g h1 h2]
  dsimp only
  by_cases hn : trimStr name = []
  · rw [if_pos hn, if_pos hn]
  · rw [if_neg hn, if_neg hn]
    cases lookupKV g.snap.byKeyword (toUpperStr (trimStr name)) with
    | some e => rfl
    | none =>
      cases lookupKV g.snap.byProtocolName (normalizeProtoName (trimStr name)) <;> rfl

/-! ### Claim theorems -/

/-- C4, counterexample: the claim says a source consisting of only a header
row is a parse failure, but `loadFromReaderLocked` only rejects an empty
record list; a header-only source parses successfully into the empty
snapshot. -/
theorem c4_counterexample :
    loadFromReaderLocked (Source.ok [hdrRow]) = .ok emptySnapshot := by
  rfl

/-- C4, amended: parsing fails exactly when the underlying read fails or the
source yields zero records (in particular when the source is empty); a source
consisting of only a header row is not a failure — it succeeds with an empty
registry. -/
theorem c4_amended_fail_iff (src : Source) :
    (loadFromReaderLocked src = .error () ↔ src = .readError ∨ src = .ok []) ∧
    (∀ hdr : List Str, loadFromReaderLocked (Source.ok [hdr]) = .ok emptySnapshot) := by
  constructor
  · cases src with
    | readError => simp [loadFromReaderLocked]
    | ok records =>
      cases records with
      | nil => simp [loadFromReaderLocked]
      | cons r rs => simp [loadFromReaderLocked]
  · intro hdr
    rfl

/-- C2, counterexample: in `dupSource` two rows both claim the integer 0;
the claim says the earlier row (entry `A`) owns it, but the by-number index
binds 0 to the later row's entry `B`. -/
theorem c2_counterexample :
    (loadFromReaderLocked dupSource).map
        (fun sn => (sn.entries.head?, lookupKV sn.byNumber 0)) =
      .ok (some entryA, some entryB) ∧
    entryA.DecimalStart ≤ 0 ∧ 0 ≤ entryA.DecimalEnd ∧ entryA ≠ entryB := by
  refine ⟨by rfl, by decide, by decide, by decide⟩

/-- C2, amended: the by-number write is unconditional, so the LAST writer
wins per integer: processing a row whose identifier parses to `[st, en]`
binds every `n` in that range to the new row's entry, overwriting any earlier
claim, and leaves integers outside the range bound as before. -/
theorem c2_amended_last_writer_wins (snap : Snapshot) (row : List Str)
    (st en n : Int) (hrow : row.length ≠ 0)
    (hp : parseDecimalField (rowField row 0) = some (st, en)) :
    lookupKV (processRow snap row).byNumber n =
      if st ≤ n ∧ n ≤ en then
        some ⟨st, en, rowField row 1, rowField row 2, rowField row 3, rowField row 4⟩
      else lookupKV snap.byNumber n := by
  unfold processRow
  rw [if_neg hrow]
  dsimp only
  have hne : rowField row 0 ≠ [] := by
    intro hnil
    rw [hnil, parseDecimalField_nil] at hp
    cases hp
  rw [if_neg hne, hp]
  dsimp only
  exact lookupKV_bindRange _ _ _ _ _

/-- Witness for the amended C2 at a concrete short row `10-12,X`. -/
theorem c2_amended_witness :
    lookupKV (processRow emptySnapshot rowW).byNumber 11 =
      some ⟨10, 12, "X".toList, [], [], []⟩ := by
  rw [c2_amended_last_writer_wins emptySnapshot rowW 10 12 11 (by decide) (by decide)]
  decide

/-- C8: every entry of a successfully parsed registry has
`0 ≤ DecimalStart ≤ DecimalEnd` (its identifier parsed as a nonnegative
integer or ordered integer range), and a row whose identifier field fails to
parse (non-digit start, malformed, or reversed range) is dropped: it adds no
entry and no index binding. -/
theorem c8_entries_from_parsed_rows :
    (∀ src snap, loadFromReaderLocked src = .ok snap →
        ∀ e ∈ snap.entries, 0 ≤ e.DecimalStart ∧ e.DecimalStart ≤ e.DecimalEnd) ∧
    (∀ snap row, parseDecimalField (rowField row 0) = none →
        processRow snap row = snap) :=
  ⟨load_entriesInv, processRow_of_parse_fail⟩

/-- Witness for C8: the ICMP entry of the default dataset is well-formed, and
a `Reserved` placeholder row is dropped without effect. -/
theorem c8_witness :
    (0 ≤ entryICMP.DecimalStart ∧ entryICMP.DecimalStart ≤ entryICMP.DecimalEnd) ∧
    processRow emptySnapshot [("Reserved".toList)] = emptySnapshot := by
  constructor
  · exact c8_entries_from_parsed_rows.1 defaultSource snapDefault (by rfl) entryICMP (by decide)
  · exact c8_entries_from_parsed_rows.2 emptySnapshot _ (by decide)

/-- C10: `LookupDecimal` on an input that trims to the empty string returns
`(0, false)` in every registry state, and rows with an empty keyword or
long-name field never contribute a binding to the respective index. -/
theorem c10_blank_name_not_found :
    (∀ emb g name, trimStr name = [] → (LookupDecimal emb name g).1 = (0, false)) ∧
    (∀ snap row, rowField row 1 = [] →
        (processRow snap row).byKeyword = snap.byKeyword) ∧
    (∀ snap row, rowField row 2 = [] →
        (processRow snap row).byProtocolName = snap.byProtocolName) := by
  refine ⟨?_, ?_, ?_⟩
  · intro emb g name h
    unfold LookupDecimal
    rcases hE : ensureLoaded emb g with ⟨err, g'⟩
    cases err
    · dsimp only
      rw [if_pos h]
    · rfl
  · intro snap row h
    unfold processRow
    split
    · rfl
    · dsimp only
      split
      · rfl
      · split
        · rfl
        · dsimp only
          rw [if_neg (by simp [h])]
  · intro snap row h
    unfold processRow
    split
    · rfl
    · dsimp only
      split
      · rfl
      · split
        · rfl
        · dsimp only
          rw [if_neg (by simp [h])]

/-- Witness for C10: an all-whitespace name is rejected in a loaded state,
and the keyword-less `Unassigned` row adds no keyword binding. -/
theorem c10_witness :
    (LookupDecimal unSource ("   ".toList) gUn).1 = (0, false) ∧
    (processRow emptySnapshot [("148-252".toList), [], ("Unassigned".toList)]).byKeyword =
      emptySnapshot.byKeyword := by
  constructor
  · exact c10_blank_name_not_found.1 unSource gUn _ (by decide)
  · exact c10_blank_name_not_found.2.1 emptySnapshot _ (by decide)

/-- C1: REFUTED by the code (code bug).  `LoadFromReader` resets the lazy
guard (`loadOnce = sync.Once{}`) and only then installs the new snapshot, so
the first query after a successful override re-runs the lazy initializer,
which re-parses the embedded default and replaces the override: a keyword
present only in the previously loaded dataset (`TCP`, of the embedded
default) is found again by a subsequent query, while a keyword of the new
dataset (`FOO`) is not found.  This contradicts both the claim and the
code's own documentation of `LoadFromReader` ("overrides the embedded
data"). -/
theorem c1_override_clobbered_by_lazy_reload :
    (LoadFromReader newSource initialState).1 = false ∧
    (LookupDecimal defaultSource ("TCP".toList) gAfterOverride).1 = (6, true) ∧
    (LookupDecimal defaultSource ("FOO".toList) gAfterOverride).1 = (0, false) := by
  refine ⟨by rfl, by rfl, by rfl⟩

/-- C3, counterexample: after a successful override with `newSource`, a
failing override (`readError`) returns an error but does NOT leave the
registry in a failure-cached empty state: the prior snapshot is physically
retained (not discarded), and the next query — because the lazy guard was
reset — re-initializes from the embedded default and finds `TCP`, rather
than returning not-found. -/
theorem c3_counterexample :
    (LoadFromReader Source.readError gAfterOverride).1 = true ∧
    (LoadFromReader Source.readError gAfterOverride).2.snap = gAfterOverride.snap ∧
    (LookupDecimal defaultSource ("TCP".toList)
        (LoadFromReader Source.readError gAfterOverride).2).1 = (6, true) := by
  refine ⟨by rfl, by rfl, by rfl⟩

/-- C3, amended: when an override parse fails, `LoadFromReader` returns an
error, leaves the in-memory snapshot untouched, and resets the lazy guard
and cached error; consequently the next query re-initializes from the
embedded default dataset and answers from it (not from the pre-override
snapshot, and not with unconditional not-found). -/
theorem c3_amended_guard_reset (src : Source) (g : GlobalState)
    (h : loadFromReaderLocked src = .error ()) :
    LoadFromReader src g = (true, ⟨g.snap, false, false⟩) ∧
    (∀ emb snap n, loadFromReaderLocked emb = .ok snap →
      (LookupByNumber emb n (LoadFromReader src g).2).1 =
        (lookupKV snap.byNumber n, (lookupKV snap.byNumber n).isSome)) := by
  have h1 : LoadFromReader src g = (true, ⟨g.snap, false, false⟩) := by
    unfold LoadFromReader
    rw [h]
  refine ⟨h1, ?_⟩
  intro emb snap n hemb
  rw [h1]
  unfold LookupByNumber
  rw [ensureLoaded_fresh emb g.snap snap hemb]
  dsimp only
  cases lookupKV snap.byNumber n <;> rfl

/-- Witness for the amended C3: a failed override on the overridden state,
followed by a query answered from the embedded default. -/
theorem c3_amended_witness :
    LoadFromReader Source.readError gAfterOverride =
      (true, ⟨gAfterOverride.snap, false, false⟩) ∧
    (LookupByNumber defaultSource 6 (LoadFromReader Source.readError gAfterOverride).2).1 =
      (lookupKV snapDefault.byNumber 6, (lookupKV snapDefault.byNumber 6).isSome) := by
  refine ⟨(c3_amended_guard_reset Source.readError gAfterOverride (by rfl)).1, ?_⟩
  exact (c3_amended_guard_reset Source.readError gAfterOverride (by rfl)).2
    defaultSource snapDefault 6 (by rfl)

/-- C5, counterexample: in `dupSource` both entries' ranges contain 0, but
`LookupByNumber 0` returns the later entry `B`, not the earlier entry `A`,
so "for every Entry ... returns that Entry" fails for `A`. -/
theorem c5_counterexample :
    (loadFromReaderLocked dupSource).map Snapshot.entries = .ok [entryA, entryB] ∧
    entryA.DecimalStart ≤ 0 ∧ 0 ≤ entryA.DecimalEnd ∧
    (LookupByNumber dupSource 0 initialState).1 = (some entryB, true) ∧
    entryB ≠ entryA := by
  refine ⟨by rfl, by decide, by decide, by rfl, by decide⟩

/-- C5, amended: for every integer `n`, a fresh-state `LookupByNumber` on a
successfully parsed dataset returns the LAST entry in file order whose range
contains `n` (found = true), and not-found when no entry's range contains
`n`; the claim as stated holds only for entries whose integers are not also
covered by a later row. -/
theorem c5_amended_last_entry_owns (emb : Source) (snap : Snapshot) (n : Int)
    (h : loadFromReaderLocked emb = .ok snap) :
    (LookupByNumber emb n initialState).1 =
      (lastOwner snap.entries n, (lastOwner snap.entries n).isSome) := by
  have hInv := load_byNumberInv emb snap h
  unfold LookupByNumber initialState emptySnapshot
  rw [ensureLoaded_fresh emb ⟨[], [], [], []⟩ snap h]
  dsimp only
  rw [hInv n]
  cases lastOwner snap.entries n <;> rfl

/-- Witness for the amended C5 on the default dataset at `n = 6`. -/
theorem c5_amended_witness :
    (LookupByNumber defaultSource 6 initialState).1 =
      (lastOwner snapDefault.entries 6, (lastOwner snapDefault.entries 6).isSome) :=
  c5_amended_last_entry_owns defaultSource snapDefault 6 (by rfl)

/-- C6: in a loaded state, `LookupDecimal` is determined by the by-keyword
index first — a keyword hit fixes the result regardless of the by-long-name
index — and only on a keyword miss by the by-long-name index; on a double
miss it is not-found.  In each case the `DecimalStart` of the matching entry
is returned. -/
theorem c6_keyword_priority (emb : Source) (g : GlobalState) (name : Str)
    (h1 : g.onceDone = true) (h2 : g.loadErr = false) (h3 : trimStr name ≠ []) :
    (∀ e, lookupKV g.snap.byKeyword (toUpperStr (trimStr name)) = some e →
        (LookupDecimal emb name g).1 = (e.DecimalStart, true)) ∧
    (lookupKV g.snap.byKeyword (toUpperStr (trimStr name)) = none →
      ∀ e, lookupKV g.snap.byProtocolName (normalizeProtoName (trimStr name)) = some e →
        (LookupDecimal emb name g).1 = (e.DecimalStart, true)) ∧
    (lookupKV g.snap.byKeyword (toUpperStr (trimStr name)) = none →
      lookupKV g.snap.byProtocolName (normalizeProtoName (trimStr name)) = none →
        (LookupDecimal emb name g).1 = (0, false)) := by
  rw [lookupDecimal_loaded emb g name h1 h2, if_neg h3]
  refine ⟨?_, ?_, ?_⟩
  · intro e he
    rw [he]
  · intro hk e he
    rw [hk]
    dsimp only
    rw [he]
  · intro hk hp
    rw [hk]
    dsimp only
    rw [hp]

/-- Witness for C6 on `prioSource`: the input `cbt` matches the keyword of
entry 7 and the long name of entry 8; the keyword wins and the result is 7,
while a long-name-only input (`something`) resolves through the second
index. -/
theorem c6_witness :
    (LookupDecimal prioSource ("cbt".toList) gPrio).1 = (7, true) ∧
    (LookupDecimal prioSource ("something".toList) gPrio).1 = (7, true) ∧
    lookupKV snapPrio.byProtocolName ("cbt".toList) = some entry8 := by
  refine ⟨?_, ?_, by decide⟩
  · exact (c6_keyword_priority prioSource gPrio _ (by rfl) (by rfl) (by decide)).1
      entry7 (by decide)
  · exact (c6_keyword_priority prioSource gPrio _ (by rfl) (by rfl) (by decide)).2.1
      (by decide) entry7 (by decide)

/-- C7: in a loaded state, `LookupDecimal` is invariant under any change of
the input that preserves the uppercased-trimmed form and the normalized form
(in particular case changes and surrounding whitespace, e.g. `tcp`, `TCP`,
`  Tcp  `); and for inputs that miss the keyword index (long-name inputs), it
is invariant under any change preserving the normalized form (case changes
and internal whitespace-run collapsing, e.g. `transMission   control` vs
`Transmission Control`). -/
theorem c7_case_whitespace_invariance (emb : Source) (g : GlobalState)
    (h1 : g.onceDone = true) (h2 : g.loadErr = false) :
    (∀ a b : Str, toUpperStr (trimStr a) = toUpperStr (trimStr b) →
        normalizeProtoName (trimStr a) = normalizeProtoName (trimStr b) →
        (LookupDecimal emb a g).1 = (LookupDecimal emb b g).1) ∧
    (∀ a b : Str, trimStr a ≠ [] → trimStr b ≠ [] →
        lookupKV g.snap.byKeyword (toUpperStr (trimStr a)) = none →
        lookupKV g.snap.byKeyword (toUpperStr (trimStr b)) = none →
        normalizeProtoName (trimStr a) = normalizeProtoName (trimStr b) →
        (LookupDecimal emb a g).1 = (LookupDecimal emb b g).1) := by
  constructor
  · intro a b hu hn
    rw [lookupDecimal_loaded emb g a h1 h2, lookupDecimal_loaded emb g b h1 h2]
    by_cases hae : trimStr a = []
    · have hbe : trimStr b = [] := by
        have hlen := congrArg List.length hu
        simp only [toUpperStr, List.length_map] at hlen
        rw [hae] at hlen
        exact List.length_eq_zero.mp hlen.symm
      rw [if_pos hae, if_pos hbe]
    · have hbe : trimStr b ≠ [] := by
        intro hb0
        have hlen := congrArg List.length hu
        simp only [toUpperStr, List.length_map] at hlen
        rw [hb0] at hlen
        exact hae (List.length_eq_zero.mp hlen)
      rw [if_neg hae, if_neg hbe, hu, hn]
  · intro a b ha hb hka hkb hn
    rw [lookupDecimal_loaded emb g a h1 h2, lookupDecimal_loaded emb g b h1 h2,
        if_neg ha, if_neg hb, hka, hkb]
    dsimp only
    rw [hn]

/-- Witness for C7 on the default dataset: the spec's literal instances. -/
theorem c7_witness :
    (LookupDecimal defaultSource ("tcp".toList) gDefault).1 =
      (LookupDecimal defaultSource (" Tcp ".toList) gDefault).1 ∧
    (LookupDecimal defaultSource ("tcp".toList) gDefault).1 =
      (LookupDecimal defaultSource ("TCP".toList) gDefault).1 ∧
    (LookupDecimal defaultSource ("transMission   control".toList) gDefault).1 =
      (LookupDecimal defaultSource ("Transmission Control".toList) gDefault).1 ∧
    (LookupDecimal defaultSource ("tcp".toList) gDefault).1 = (6, true) := by
  refine ⟨?_, ?_, ?_, by rfl⟩
  · exact (c7_case_whitespace_invariance defaultSource gDefault (by rfl) (by rfl)).1
      _ _ (by decide) (by decide)
  · exact (c7_case_whitespace_invariance defaultSource gDefault (by rfl) (by rfl)).1
      _ _ (by decide) (by decide)
  · exact (c7_case_whitespace_invariance defaultSource gDefault (by rfl) (by rfl)).2
      _ _ (by decide) (by decide) (by decide) (by decide) (by decide)

/-- C9: in a loaded state, `LookupKeyword n` reports not-found exactly when
the by-number index has no entry for `n` or that entry's `Keyword` is empty,
and otherwise returns the entry's `Keyword`; symmetrically
`LookupProtocolName n` with the `Protocol` field. -/
theorem c9_found_conditions (emb : Source) (g : GlobalState) (n : Int)
    (h1 : g.onceDone = true) (h2 : g.loadErr = false) :
    ((LookupKeyword emb n g).1.2 = false ↔
      lookupKV g.snap.byNumber n = none ∨
        ∃ e, lookupKV g.snap.byNumber n = some e ∧ e.Keyword = []) ∧
    (∀ e, lookupKV g.snap.byNumber n = some e → e.Keyword ≠ [] →
      (LookupKeyword emb n g).1 = (e.Keyword, true)) ∧
    ((LookupProtocolName emb n g).1.2 = false ↔
      lookupKV g.snap.byNumber n = none ∨
        ∃ e, lookupKV g.snap.byNumber n = some e ∧ e.Protocol = []) ∧
    (∀ e, lookupKV g.snap.byNumber n = some e → e.Protocol ≠ [] →
      (LookupProtocolName emb n g).1 = (e.Protocol, true)) := by
  have hB := lookupByNumber_loaded emb g n h1 h2
  unfold LookupKeyword LookupProtocolName
  rw [hB]
  cases hkv : lookupKV g.snap.byNumber n with
  | none =>
    simp only [Option.isSome_none]
    refine ⟨by simp, ?_, by simp, ?_⟩
    · intro e he
      simp at he
    · intro e he
      simp at he
  | some e =>
    simp only [Option.isSome_some]
    refine ⟨?_, ?_, ?_, ?_⟩
    · by_cases hk : e.Keyword = []
      · rw [if_pos hk]
        simp [hk]
      · rw [if_neg hk]
        simp [hk]
    · intro e' he' hk
      cases he'
      rw [if_neg hk]
    · by_cases hk : e.Protocol = []
      · rw [if_pos hk]
        simp [hk]
      · rw [if_neg hk]
        simp [hk]
    · intro e' he' hk
      cases he'
      rw [if_neg hk]

set_option maxRecDepth 8192 in
/-- Witness for C9 on the `148-252,,Unassigned,,` row: the keyword query is
not-found (empty short name) while the long-name query returns
`Unassigned`. -/
theorem c9_witness :
    (LookupKeyword unSource 150 gUn).1.2 = false ∧
    (LookupProtocolName unSource 150 gUn).1 = ("Unassigned".toList, true) := by
  constructor
  · exact (c9_found_conditions unSource gUn 150 (by rfl) (by rfl)).1.mpr
      (Or.inr ⟨entryUn, by decide, by decide⟩)
  · exact (c9_found_conditions unSource gUn 150 (by rfl) (by rfl)).2.2.2
      entryUn (by decide) (by decide)

end IpProto
